import Mathlib

/-!
Verification of the visual-AI decision layer: the model router
(`src/services/visual-ai/src/router.py`), the temporal analyzer
(`src/services/visual-ai/src/models/vjepa2.py`), the grid change detector
(`src/services/visual-ai/src/utils.py` and
`src/services/visual-ai/src/models/siglip.py`), and the healing-validation
request handler (`src/services/visual-ai/src/server.py`).

Modelling conventions:
* Python floats become rationals (`ℚ`); all the decision logic under study
  only adds, multiplies by literal constants, divides and compares, so the
  rational embedding is exact.
* The neural encoders are opaque collaborators, modelled by an `Encoder`
  record holding an arbitrary frame-sequence-to-embedding function and an
  arbitrary cosine-similarity function; every theorem quantifies over the
  encoder, so nothing depends on what a real encoder computes.
* A Python `IndexError` on `xs[-1]` of an empty list is modelled by
  `List.getLast?` returning `none`, and a caught exception surfacing as a
  gRPC INTERNAL status is modelled by a dedicated outcome constructor.
-/

/-- Task types, from `router.py` lines 17-25 (`class TaskType(Enum)`). -/
inductive TaskType where
  | compare_simple
  | compare_sequence
  | stability_check
  | healing_validation
  | embedding
  | text_search
  | visual_regression
  | change_analysis
deriving DecidableEq

/-- The static routing table, `router.py` lines 38-47 (`ROUTING_TABLE`).
The Python code reads it with `.get(task_type, "dinov2")`; the dictionary
has an entry for all eight task types, so the total function below is
exactly the lookup. -/
def ROUTING_TABLE : TaskType → String
  | .compare_simple => "dinov2"
  | .compare_sequence => "vjepa2"
  | .stability_check => "vjepa2"
  | .healing_validation => "vjepa2"
  | .embedding => "dinov2"
  | .text_search => "siglip"
  | .visual_regression => "dinov2"
  | .change_analysis => "vjepa2"

/-- The router entry point `ModelRouter.route`, `router.py` lines 80-131.

The availability set `self.available_models` is modelled as a list of
provider names; the Python `list(self.available_models)[0]` picks an
arbitrary element of the set, modelled here as the head of the list.
Python's `if explicit_model and explicit_model in self.available_models`
treats both `None` and the empty string as "no override" (falsiness), which
is captured by `explicit_model.getD "" ≠ ""`.  `raise RuntimeError(...)` is
modelled as `Except.error`. -/
def route (available : List String) (task : TaskType)
    (explicit_model : Option String) (frame_count : ℕ)
    (needs_high_accuracy : Bool) : Except String String :=
  -- router.py lines 100-101: explicit model requested
  if explicit_model.getD "" ≠ "" ∧ available.contains (explicit_model.getD "") then
    Except.ok (explicit_model.getD "")
  else
    -- router.py line 104: default routing
    let preferred := ROUTING_TABLE task
    if available.contains preferred then
      -- router.py lines 122-131: special routing rules
      if 1 < frame_count ∧ available.contains "vjepa2" then
        Except.ok "vjepa2"
      else if needs_high_accuracy ∧ task = TaskType.healing_validation ∧
          available.contains "vjepa2" then
        Except.ok "vjepa2"
      else
        Except.ok preferred
    else
      -- router.py lines 106-119: fallback logic
      if preferred = "vjepa2" ∧ available.contains "dinov2" then
        Except.ok "dinov2"
      else if preferred = "siglip" ∧ available.contains "dinov2" then
        Except.ok "dinov2"
      else
        match available with
        | [] => Except.error "No models available"
        | m :: _ => Except.ok m

/-- An opaque embedding provider: `encodeFrames` stands for the neural
encoding of a frame sequence (`VJEPA2Encoder.encode_frames`), `cosineSim`
for `F.cosine_similarity(..., dim=-1).item()`, and `use_hf` for the flag
recording whether the real HuggingFace model was loaded. -/
structure Encoder (F Emb : Type) where
  encodeFrames : List F → Emb
  cosineSim : Emb → Emb → ℚ
  use_hf : Bool

/-- Single-frame encoding `VJEPA2Encoder.encode_single`, `vjepa2.py` line
120: a single frame is
encoded as a one-frame video. -/
def encode_single {F Emb : Type} (E : Encoder F Emb) (frame : F) : Emb :=
  E.encodeFrames [frame]

/-- The three explanation variants built by `VJEPA2Encoder.validate_healing`,
`vjepa2.py` lines 260-266.  The Python code renders them as formatted
strings; each constructor carries exactly the similarity scores the
corresponding string interpolates. -/
inductive HealingAnalysis where
  | success (combined_sim : ℚ)
  | finalStateFailure (final_sim : ℚ)
  | uncertain (transition_sim final_sim : ℚ)
deriving DecidableEq

/-- The transition similarity of `validate_healing`, `vjepa2.py` lines
239-244 and 251: cosine similarity between the encoding of the
concatenated before+after frames and the encoding of the expected frames. -/
def transitionSimilarity {F Emb : Type} (E : Encoder F Emb)
    (before_frames after_frames expected_frames : List F) : ℚ :=
  E.cosineSim (E.encodeFrames (before_frames ++ after_frames))
    (E.encodeFrames expected_frames)

/-- The final-state similarity of `validate_healing`, `vjepa2.py` lines
247-248 and 252: cosine similarity between the single-frame encodings of
the last after-frame and the last expected frame. -/
def finalSimilarity {F Emb : Type} (E : Encoder F Emb)
    (actual_last expected_last : F) : ℚ :=
  E.cosineSim (encode_single E actual_last) (encode_single E expected_last)

/-- Healing validation `VJEPA2Encoder.validate_healing`, `vjepa2.py` lines
218-268.
Returns `(is_valid, combined_sim, state_confidence, analysis)`.  The Python
expressions `after_frames[-1]` and `expected_frames[-1]` raise `IndexError`
on an empty list; that is modelled by returning `none`. -/
def validate_healing {F Emb : Type} (E : Encoder F Emb)
    (before_frames after_frames expected_frames : List F)
    (threshold : ℚ) : Option (Bool × ℚ × ℚ × HealingAnalysis) :=
  match after_frames.getLast?, expected_frames.getLast? with
  | some actual_last, some expected_last =>
    let transition_sim := transitionSimilarity E before_frames after_frames expected_frames
    let final_sim := finalSimilarity E actual_last expected_last
    -- vjepa2.py line 255: weight final state more heavily
    let combined_sim := 3/10 * transition_sim + 7/10 * final_sim
    -- vjepa2.py line 257
    let is_valid : Bool := threshold ≤ combined_sim
    -- vjepa2.py line 258
    let state_confidence : ℚ := if E.use_hf then 9/10 else 3/4
    -- vjepa2.py lines 260-266
    let analysis : HealingAnalysis :=
      if is_valid then .success combined_sim
      else if final_sim < threshold then .finalStateFailure final_sim
      else .uncertain transition_sim final_sim
    some (is_valid, combined_sim, state_confidence, analysis)
  | _, _ => none

/-- One step of the stability walk, `vjepa2.py` lines 191-198.  The state is
`(i, stable_count, stable_at)` where `i` is the loop index from
`enumerate(similarities)` and `stable_at` uses the Python sentinel `-1`. -/
def stabilityStep (threshold : ℚ) (st : ℕ × ℕ × ℤ) (sim : ℚ) : ℕ × ℕ × ℤ :=
  if threshold ≤ sim then
    let stable_count := st.2.1 + 1
    (st.1 + 1, stable_count,
      if 2 ≤ stable_count ∧ st.2.2 = -1 then (st.1 : ℤ) else st.2.2)
  else
    (st.1 + 1, 0, -1)

/-- The full stability walk over the consecutive-pair similarities,
`vjepa2.py` lines 188-198, starting from `stable_count = 0`,
`stable_at = -1`. -/
def stabilityWalk (similarities : List ℚ) (threshold : ℚ) : ℕ × ℕ × ℤ :=
  similarities.foldl (stabilityStep threshold) (0, 0, -1)

/-- The consecutive-pair similarities of a frame sequence, `vjepa2.py`
lines 176-185: each frame is encoded on its own and adjacent encodings are
compared by cosine similarity. -/
def consecutiveSimilarities {F Emb : Type} (E : Encoder F Emb)
    (frames : List F) : List ℚ :=
  let embeddings := frames.map (fun f => encode_single E f)
  List.zipWith E.cosineSim embeddings embeddings.tail

/-- Stability detection `VJEPA2Encoder.detect_stability`, `vjepa2.py` lines
154-216.  Returns
`(is_stable, stable_at_frame_index, stability_score, activity)`.  The
activity description is the literal Python string. -/
def detect_stability {F Emb : Type} (E : Encoder F Emb)
    (frames : List F) (threshold : ℚ) : Bool × ℤ × ℚ × String :=
  -- vjepa2.py lines 172-173
  if frames.length < 2 then (true, 0, 1, "Single frame - assuming stable")
  else
    let similarities := consecutiveSimilarities E frames
    let walk := stabilityWalk similarities threshold
    let stable_count := walk.2.1
    let stable_at := walk.2.2
    -- vjepa2.py line 200
    let is_stable : Bool := 2 ≤ stable_count
    -- vjepa2.py line 203
    let stability_score : ℚ :=
      if similarities = [] then 1 else similarities.sum / similarities.length
    -- vjepa2.py lines 206-214
    let avg_motion := 1 - stability_score
    let activity : String :=
      if avg_motion < 2/100 then "static"
      else if avg_motion < 10/100 then "minor_motion"
      else if avg_motion < 30/100 then "animation"
      else "significant_change"
    -- vjepa2.py line 216
    (is_stable, if 0 ≤ stable_at then stable_at else (frames.length : ℤ) - 1,
      stability_score, activity)

/-- The length of the maximal suffix of values above (or at) the threshold.
This is the declarative counterpart of the walk's `stable_count`: the walk
ends with counter `k` exactly when the last `k` similarities qualify. -/
def trailingRunLen (similarities : List ℚ) (threshold : ℚ) : ℕ :=
  (similarities.reverse.takeWhile (fun s => decide (threshold ≤ s))).length

/-- A three-dimensional tensor (channels × height × width) of rational pixel
values, the shape `calculate_changed_regions` reads via
`_, H, W = frame1.shape` after squeezing a possible batch dimension. -/
structure Tensor3 where
  C : ℕ
  H : ℕ
  W : ℕ
  val : ℕ → ℕ → ℕ → ℚ

/-- A changed region, the dictionary built at `utils.py` lines 192-198. -/
structure ChangeRegion where
  x : ℕ
  y : ℕ
  width : ℕ
  height : ℕ
  significance : ℚ
deriving DecidableEq

/-- The cell bounds `(y_start, y_end, x_start, x_end)` scanned by
`calculate_changed_regions`, `utils.py` lines 181-184: cell `(i, j)` covers
rows `[i*(H//grid_size), (i+1)*(H//grid_size))` and columns
`[j*(W//grid_size), (j+1)*(W//grid_size))`. -/
def changedRegionCellBounds (H W grid_size i j : ℕ) : ℕ × ℕ × ℕ × ℕ :=
  (i * (H / grid_size), (i + 1) * (H / grid_size),
   j * (W / grid_size), (j + 1) * (W / grid_size))

/-- The cell bounds scanned by `SigLIPEncoder.find_by_description`,
`siglip.py` lines 168-171: identical to `changedRegionCellBounds` except
that the end coordinates are clamped to the image size with `min`. -/
def siglipCellBounds (H W grid_size i j : ℕ) : ℕ × ℕ × ℕ × ℕ :=
  (i * (H / grid_size), min ((i + 1) * (H / grid_size)) H,
   j * (W / grid_size), min ((j + 1) * (W / grid_size)) W)

/-- Pixel `(y, x)` lies inside the cell `(i, j)` considered by the grid
change detector. -/
def cellCoversPixel (H W grid_size i j y x : ℕ) : Prop :=
  (changedRegionCellBounds H W grid_size i j).1 ≤ y ∧
  y < (changedRegionCellBounds H W grid_size i j).2.1 ∧
  (changedRegionCellBounds H W grid_size i j).2.2.1 ≤ x ∧
  x < (changedRegionCellBounds H W grid_size i j).2.2.2

/-- Sum of absolute per-entry differences of two tensors over the patch
`[:, y_start:y_end, x_start:x_end]` (all channels of `frame1`'s shape, as
the Python slicing does). -/
def patchAbsDiffSum (frame1 frame2 : Tensor3)
    (y_start y_end x_start x_end : ℕ) : ℚ :=
  ((List.range frame1.C).map (fun c =>
    ((List.range (y_end - y_start)).map (fun dy =>
      ((List.range (x_end - x_start)).map (fun dx =>
        |frame1.val c (y_start + dy) (x_start + dx) -
          frame2.val c (y_start + dy) (x_start + dx)|)).sum)).sum)).sum

/-- The value `(patch1 - patch2).abs().mean().item()` for grid cell `(i, j)`,
`utils.py` lines 186-189: the sum of absolute differences over the patch
divided by the number of patch entries.  (For an empty patch torch's mean
is NaN, which never compares greater than a threshold; in line with that,
the rational `0 / 0 = 0` here also never exceeds a positive threshold.) -/
def cellMeanAbsDiff (frame1 frame2 : Tensor3) (grid_size i j : ℕ) : ℚ :=
  let b := changedRegionCellBounds frame1.H frame1.W grid_size i j
  patchAbsDiffSum frame1 frame2 b.1 b.2.1 b.2.2.1 b.2.2.2 /
    (frame1.C * (b.2.1 - b.1) * (b.2.2.2 - b.2.2.1))

/-- The grid change detector `calculate_changed_regions`, `utils.py` lines
154-200: scan a
`grid_size × grid_size` grid of cells (the nested `for i / for j` loops),
and for each cell whose mean absolute difference strictly exceeds the
threshold emit a region `{x, y, width, height, significance}` with
`significance = min(diff / threshold, 1.0)`. -/
def calculate_changed_regions (frame1 frame2 : Tensor3)
    (threshold : ℚ) (grid_size : ℕ) : List ChangeRegion :=
  let H := frame1.H
  let W := frame1.W
  let patch_h := H / grid_size
  let patch_w := W / grid_size
  ((List.range grid_size).flatMap (fun i =>
      (List.range grid_size).map (fun j => (i, j)))).filterMap (fun p =>
    let b := changedRegionCellBounds H W grid_size p.1 p.2
    let diff := cellMeanAbsDiff frame1 frame2 grid_size p.1 p.2
    if threshold < diff then
      some { x := b.2.2.1, y := b.1, width := patch_w, height := patch_h,
             significance := min (diff / threshold) 1 }
    else none)

/-- gRPC completion outcomes of a request handler in `server.py`: a normal
response, or one of the status codes the handler sets.  `internal` carries
`str(e)` of the caught exception. -/
inductive GrpcOutcome (α : Type) where
  | ok : α → GrpcOutcome α
  | invalidArgument : String → GrpcOutcome α
  | internal : String → GrpcOutcome α
deriving DecidableEq

/-- The before-half of the midpoint split of `VisualAIServicer.ValidateHealing`,
`server.py` lines 205-206: `frame_sources[:max(1, mid)]` with
`mid = len(frame_sources) // 2`. -/
def healingBeforeFrames {F : Type} (frame_sources : List F) : List F :=
  frame_sources.take (max 1 (frame_sources.length / 2))

/-- The after-half of the midpoint split, `server.py` line 207:
`frame_sources[max(1, mid):]`. -/
def healingAfterFrames {F : Type} (frame_sources : List F) : List F :=
  frame_sources.drop (max 1 (frame_sources.length / 2))

/-- The expected frames of `ValidateHealing`, `server.py` line 208:
`[load_and_preprocess(expected_source)] if expected_source else after_frames`. -/
def healingExpectedFrames {F : Type} (expected_source : Option F)
    (after_frames : List F) : List F :=
  match expected_source with
  | some e => [e]
  | none => after_frames

/-- The request handler `VisualAIServicer.ValidateHealing`, `server.py`
lines 177-251, for the
case where the routed encoder is the V-JEPA 2 encoder (which has
`validate_healing`): reject an empty frame list with INVALID_ARGUMENT
(lines 199-202), split the sequence at the midpoint (lines 204-208), call
`validate_healing`, and surface a raised `IndexError` — caught by the
`except` block at lines 247-251 — as an INTERNAL status whose detail is
`str(e)`. -/
def ValidateHealing {F Emb : Type} (E : Encoder F Emb)
    (frame_sources : List F) (expected_source : Option F)
    (threshold : ℚ) : GrpcOutcome (Bool × ℚ × ℚ × HealingAnalysis) :=
  match frame_sources with
  | [] => .invalidArgument "No frames provided"
  | _ :: _ =>
    let before_frames := healingBeforeFrames frame_sources
    let after_frames := healingAfterFrames frame_sources
    let expected_frames := healingExpectedFrames expected_source after_frames
    match validate_healing E before_frames after_frames expected_frames threshold with
    | some result => .ok result
    | none => .internal "list index out of range"

/-- A concrete opaque encoder used to instantiate encoder-generic theorems:
every consecutive-pair cosine similarity is `0.99`. -/
def constSimEncoder : Encoder ℕ ℕ where
  encodeFrames := fun l => l.sum
  cosineSim := fun _ _ => 99/100
  use_hf := true

/-- A concrete opaque encoder realizing transition similarity `0.60` and
final-state similarity `0.90` on the frame lists `[0]`, `[1]`, `[2]`:
embeddings are the frame lists themselves, and the cosine similarity
distinguishes the multi-frame transition comparison (total length ≥ 3)
from the single-frame final-state comparison. -/
def healingEncoderA : Encoder ℕ (List ℕ) where
  encodeFrames := fun l => l
  cosineSim := fun a b => if 3 ≤ a.length + b.length then 3/5 else 9/10
  use_hf := false

/-- A concrete opaque encoder realizing transition similarity `0.50` and
final-state similarity `0.40`, in the style of `healingEncoderA`. -/
def healingEncoderB : Encoder ℕ (List ℕ) where
  encodeFrames := fun l => l
  cosineSim := fun a b => if 3 ≤ a.length + b.length then 1/2 else 2/5
  use_hf := false

/-- A concrete all-zero 1×1×1 frame. -/
def zeroFrame : Tensor3 where
  C := 1
  H := 1
  W := 1
  val := fun _ _ _ => 0

/-- A concrete all-one 1×1×1 frame. -/
def oneFrame : Tensor3 where
  C := 1
  H := 1
  W := 1
  val := fun _ _ _ => 1

/-- C5: if an explicit provider override is supplied (a non-empty string —
Python's `if explicit_model` treats `None` and `""` as "not supplied") and
that provider is a member of the availability set, `route` returns exactly
that provider, regardless of the task type, frame count, accuracy flag and
the rest of the availability set. -/
theorem route_explicit_override_wins (available : List String) (task : TaskType)
    (s : String) (frame_count : ℕ) (needs_high_accuracy : Bool)
    (hs : s ≠ "") (hmem : s ∈ available) :
    route available task (some s) frame_count needs_high_accuracy = Except.ok s := by
  simp [route, hs, hmem]

/-- Witness for `route_explicit_override_wins` at a concrete input. -/
theorem route_explicit_override_wins_witness :
    ("siglip" : String) ≠ "" ∧
      "siglip" ∈ (["dinov2", "siglip"] : List String) ∧
      route ["dinov2", "siglip"] TaskType.healing_validation (some "siglip") 7 true =
        Except.ok "siglip" :=
  ⟨by decide, by decide,
    route_explicit_override_wins ["dinov2", "siglip"] TaskType.healing_validation
      "siglip" 7 true (by decide) (by decide)⟩

/-- C6: with an empty availability set, `route` never returns a provider:
for every task type, explicit override, frame count and accuracy flag it
fails with the no-provider-available error (`raise RuntimeError("No models
available")` in `router.py` line 119). -/
theorem route_empty_available_errors (task : TaskType)
    (explicit_model : Option String) (frame_count : ℕ)
    (needs_high_accuracy : Bool) :
    route [] task explicit_model frame_count needs_high_accuracy =
      Except.error "No models available" := by
  cases explicit_model <;> simp [route]

/-- C7: the four tasks whose static routing-table entry is the
sequence-capable provider ("vjepa2") fall back to the fast provider
("dinov2") whenever "vjepa2" is unavailable, "dinov2" is available, and no
explicit override applies (i.e. the override branch of `route` does not
fire). -/
theorem route_vjepa2_fallback_to_dinov2 (available : List String)
    (task : TaskType) (explicit_model : Option String) (frame_count : ℕ)
    (needs_high_accuracy : Bool)
    (htask : task = TaskType.compare_sequence ∨ task = TaskType.stability_check ∨
      task = TaskType.healing_validation ∨ task = TaskType.change_analysis)
    (hover : ¬(explicit_model.getD "" ≠ "" ∧
      available.contains (explicit_model.getD "") = true))
    (hv : "vjepa2" ∉ available) (hd : "dinov2" ∈ available) :
    ROUTING_TABLE task = "vjepa2" ∧
      route available task explicit_model frame_count needs_high_accuracy =
        Except.ok "dinov2" := by
  have htable : ROUTING_TABLE task = "vjepa2" := by
    rcases htask with h | h | h | h <;> subst h <;> rfl
  refine ⟨htable, ?_⟩
  simp only [route, htable]
  rw [if_neg (by simpa using hover)]
  simp [hv, hd]

/-- Witness for `route_vjepa2_fallback_to_dinov2` at a concrete input. -/
theorem route_vjepa2_fallback_to_dinov2_witness :
    "vjepa2" ∉ (["dinov2", "siglip"] : List String) ∧
      "dinov2" ∈ (["dinov2", "siglip"] : List String) ∧
      ROUTING_TABLE TaskType.compare_sequence = "vjepa2" ∧
      route ["dinov2", "siglip"] TaskType.compare_sequence none 3 false =
        Except.ok "dinov2" :=
  ⟨by decide, by decide,
    route_vjepa2_fallback_to_dinov2 ["dinov2", "siglip"] TaskType.compare_sequence
      none 3 false (Or.inl rfl) (by decide) (by decide) (by decide)⟩

/-- C2: whenever `validate_healing` completes, the combined similarity it
returns equals `0.3 × transition_similarity + 0.7 × final_similarity`, and
`is_valid` holds if and only if the combined value is at least the
threshold (closed lower bound); moreover, at transition similarity `0.60`
and final-state similarity `0.90` (realized by `healingEncoderA`) the
combined value is exactly `0.81`. -/
theorem validate_healing_combined_formula {F Emb : Type} (E : Encoder F Emb)
    (before_frames after_frames expected_frames : List F) (threshold : ℚ)
    (is_valid : Bool) (combined_sim state_confidence : ℚ)
    (analysis : HealingAnalysis) (actual_last expected_last : F)
    (ha : after_frames.getLast? = some actual_last)
    (he : expected_frames.getLast? = some expected_last)
    (h : validate_healing E before_frames after_frames expected_frames threshold =
      some (is_valid, combined_sim, state_confidence, analysis)) :
    combined_sim =
      3/10 * transitionSimilarity E before_frames after_frames expected_frames +
        7/10 * finalSimilarity E actual_last expected_last ∧
      (is_valid = true ↔ threshold ≤ combined_sim) ∧
      validate_healing healingEncoderA [0] [1] [2] (17/20) =
        some (false, 81/100, 3/4, .uncertain (3/5) (9/10)) := by
  rw [validate_healing, ha, he] at h
  simp only [Option.some.injEq, Prod.mk.injEq] at h
  obtain ⟨hvalid, hcomb, -, -⟩ := h
  refine ⟨hcomb.symm, ?_, ?_⟩
  · subst hcomb hvalid
    simp
  · simp [validate_healing, healingEncoderA, transitionSimilarity,
      finalSimilarity, encode_single]
    norm_num

/-- Witness for `validate_healing_combined_formula` at a concrete input. -/
theorem validate_healing_combined_formula_witness :
    ([1] : List ℕ).getLast? = some 1 ∧
      ([2] : List ℕ).getLast? = some 2 ∧
      validate_healing healingEncoderA [0] [1] [2] (17/20) =
        some (false, 81/100, 3/4, .uncertain (3/5) (9/10)) ∧
      (81/100 : ℚ) =
        3/10 * transitionSimilarity healingEncoderA [0] [1] [2] +
          7/10 * finalSimilarity healingEncoderA 1 2 ∧
      (false = true ↔ (17/20 : ℚ) ≤ 81/100) := by
  have h : validate_healing healingEncoderA [0] [1] [2] (17/20) =
      some (false, 81/100, 3/4, .uncertain (3/5) (9/10)) := by
    simp [validate_healing, healingEncoderA, transitionSimilarity,
      finalSimilarity, encode_single]
    norm_num
  have T := validate_healing_combined_formula healingEncoderA [0] [1] [2]
    (17/20) false (81/100) (3/4) (.uncertain (3/5) (9/10)) 1 2 rfl rfl h
  exact ⟨rfl, rfl, h, T.1, T.2.1⟩

/-- C8: the function `validate_healing` selects its explanation by a
three-way branch —
success citing the combined score when valid; final-state failure when
invalid and the final-state similarity is below the threshold; the
uncertain variant citing both sub-scores otherwise.  In particular, at
transition similarity `0.50`, final similarity `0.40` and threshold `0.85`
(realized by `healingEncoderB`), the combined value is `0.43`, `is_valid`
is false, and the explanation is the final-state-failure variant. -/
theorem validate_healing_three_way_explanation {F Emb : Type}
    (E : Encoder F Emb) (before_frames after_frames expected_frames : List F)
    (threshold : ℚ) (is_valid : Bool) (combined_sim state_confidence : ℚ)
    (analysis : HealingAnalysis) (actual_last expected_last : F)
    (ha : after_frames.getLast? = some actual_last)
    (he : expected_frames.getLast? = some expected_last)
    (h : validate_healing E before_frames after_frames expected_frames threshold =
      some (is_valid, combined_sim, state_confidence, analysis)) :
    (is_valid = true → analysis = .success combined_sim) ∧
      (is_valid = false → finalSimilarity E actual_last expected_last < threshold →
        analysis = .finalStateFailure (finalSimilarity E actual_last expected_last)) ∧
      (is_valid = false → threshold ≤ finalSimilarity E actual_last expected_last →
        analysis = .uncertain
          (transitionSimilarity E before_frames after_frames expected_frames)
          (finalSimilarity E actual_last expected_last)) ∧
      validate_healing healingEncoderB [0] [1] [2] (17/20) =
        some (false, 43/100, 3/4, .finalStateFailure (2/5)) := by
  rw [validate_healing, ha, he] at h
  simp only [Option.some.injEq, Prod.mk.injEq] at h
  obtain ⟨hvalid, hcomb, -, hanalysis⟩ := h
  refine ⟨?_, ?_, ?_, ?_⟩
  · intro hv
    rw [← hanalysis, if_pos (hvalid ▸ hv), hcomb]
  · intro hv hfinal
    rw [← hanalysis, if_neg (by simp [hvalid ▸ hv]), if_pos hfinal]
  · intro hv hfinal
    rw [← hanalysis, if_neg (by simp [hvalid ▸ hv]), if_neg (not_lt.mpr hfinal)]
  · simp [validate_healing, healingEncoderB, transitionSimilarity,
      finalSimilarity, encode_single]
    norm_num

/-- Witness for `validate_healing_three_way_explanation` at a concrete
input. -/
theorem validate_healing_three_way_explanation_witness :
    ([1] : List ℕ).getLast? = some 1 ∧
      ([2] : List ℕ).getLast? = some 2 ∧
      validate_healing healingEncoderB [0] [1] [2] (17/20) =
        some (false, 43/100, 3/4, .finalStateFailure (2/5)) ∧
      finalSimilarity healingEncoderB 1 2 < 17/20 ∧
      HealingAnalysis.finalStateFailure (2/5) =
        .finalStateFailure (finalSimilarity healingEncoderB 1 2) := by
  have h : validate_healing healingEncoderB [0] [1] [2] (17/20) =
      some (false, 43/100, 3/4, .finalStateFailure (2/5)) := by
    simp [validate_healing, healingEncoderB, transitionSimilarity,
      finalSimilarity, encode_single]
    norm_num
  have hfin : finalSimilarity healingEncoderB 1 2 < 17/20 := by
    simp [finalSimilarity, healingEncoderB, encode_single]
    norm_num
  have T := validate_healing_three_way_explanation healingEncoderB [0] [1] [2]
    (17/20) false (43/100) (3/4) (.finalStateFailure (2/5)) 1 2 rfl rfl h
  exact ⟨rfl, rfl, h, hfin, (T.2.1 rfl hfin).symm ▸ rfl⟩

/-- C4 (amended): for every encoder, frame and threshold, `detect_stability`
on a single-frame sequence returns `is_stable = true`, stable index `0`,
stability score `1.0`, and the activity description
`"Single frame - assuming stable"` (`vjepa2.py` lines 172-173) — not the
activity label `"static"`. -/
theorem detect_stability_single_frame {F Emb : Type} (E : Encoder F Emb)
    (frame : F) (threshold : ℚ) :
    detect_stability E [frame] threshold =
      (true, 0, 1, "Single frame - assuming stable") := rfl

/-- Counterexample to C4 as stated: on a concrete single-frame input the
activity string returned by `detect_stability` is
`"Single frame - assuming stable"`, which differs from `"static"`. -/
theorem detect_stability_single_frame_label_not_static :
    (detect_stability constSimEncoder [0] (49/50)).2.2.2 =
        "Single frame - assuming stable" ∧
      (detect_stability constSimEncoder [0] (49/50)).2.2.2 ≠ "static" :=
  ⟨rfl, by decide⟩

/-- C10: a healing-validation request whose frame sequence contains exactly
one frame passes the non-empty input check, but the midpoint split leaves
the after-frames list empty, `validate_healing`'s access to the last
element of that list fails, and the request completes with an INTERNAL
error rather than a healing verdict — for every encoder, frame, optional
expected state and threshold. -/
theorem ValidateHealing_single_frame_internal_error {F Emb : Type}
    (E : Encoder F Emb) (frame : F) (expected_source : Option F)
    (threshold : ℚ) :
    ([frame] : List F) ≠ [] ∧
      healingAfterFrames [frame] = [] ∧
      validate_healing E (healingBeforeFrames [frame]) (healingAfterFrames [frame])
        (healingExpectedFrames expected_source (healingAfterFrames [frame]))
        threshold = none ∧
      ValidateHealing E [frame] expected_source threshold =
        GrpcOutcome.internal "list index out of range" := by
  have hafter : healingAfterFrames ([frame] : List F) = [] := by
    simp [healingAfterFrames]
  refine ⟨by simp, hafter, ?_, ?_⟩
  · rw [hafter]
    cases expected_source <;> simp [validate_healing, healingExpectedFrames]
  · have hvh : validate_healing E (healingBeforeFrames [frame])
        (healingAfterFrames [frame])
        (healingExpectedFrames expected_source (healingAfterFrames [frame]))
        threshold = none := by
      rw [hafter]
      cases expected_source <;> simp [validate_healing, healingExpectedFrames]
    simp [ValidateHealing, hvh]

theorem trailingRunLen_append (l : List ℚ) (s threshold : ℚ) :
    trailingRunLen (l ++ [s]) threshold =
      if threshold ≤ s then trailingRunLen l threshold + 1 else 0 := by
  by_cases hp : threshold ≤ s <;>
    simp [trailingRunLen, List.reverse_append, List.takeWhile_cons, hp]

theorem trailingRunLen_le_length (l : List ℚ) (threshold : ℚ) :
    trailingRunLen l threshold ≤ l.length := by
  have h : ∀ (t : List ℚ),
      (t.takeWhile (fun s => decide (threshold ≤ s))).length ≤ t.length := by
    intro t
    induction t with
    | nil => simp
    | cons a t ih =>
      rw [List.takeWhile_cons]
      split
      · simpa using ih
      · simp
  calc trailingRunLen l threshold ≤ l.reverse.length := h l.reverse
    _ = l.length := l.length_reverse

/-- The stability walk, characterized: after consuming the whole similarity
list the loop index equals the list length, the counter equals the length
of the maximal qualifying suffix run, and `stable_at` is `-1` unless that
run has length at least 2, in which case it is the index at which the
counter of that final run first reached 2 (one past the run's start) —
i.e. the position is cleared on every run break and re-armed by the next
qualifying run. -/
theorem stabilityWalk_characterization (similarities : List ℚ) (threshold : ℚ) :
    stabilityWalk similarities threshold =
      (similarities.length, trailingRunLen similarities threshold,
        if 2 ≤ trailingRunLen similarities threshold then
          (similarities.length : ℤ) - trailingRunLen similarities threshold + 1
        else -1) := by
  induction similarities using List.reverseRecOn with
  | nil => rfl
  | append_singleton l s ih =>
    have hle := trailingRunLen_le_length l threshold
    rw [stabilityWalk, List.foldl_append]
    have hl : List.foldl (stabilityStep threshold) (0, 0, -1) l =
        stabilityWalk l threshold := rfl
    rw [hl, ih, trailingRunLen_append]
    simp only [List.foldl_cons, List.foldl_nil, List.length_append,
      List.length_singleton]
    by_cases hp : threshold ≤ s
    · simp only [stabilityStep, hp, if_true, Prod.mk.injEq]
      refine ⟨trivial, trivial, ?_⟩
      split_ifs <;> push_cast <;> omega
    · simp only [stabilityStep, hp, if_false, Prod.mk.injEq]
      refine ⟨trivial, trivial, ?_⟩
      norm_num

/-- C3: for every frame sequence of length ≥ 2, `detect_stability` reports
`is_stable` exactly when the walk over the consecutive-pair similarities
ends with its counter at 2 or more — the counter being the length of the
trailing run of similarities ≥ threshold (a similarity exactly equal to the
threshold counts) — and, when stable, `stable_at` is the index at which the
counter of that final qualifying run first reached 2 (cleared and re-armed
whenever a run breaks); when never stable the reported index is the last
frame index.  In particular a 5-frame sequence with consecutive
similarities `[0.99, 0.99, 0.99, 0.99]` at threshold `0.98` yields
`is_stable = true`, `stable_at = 1` and `stability_score = 0.99`. -/
theorem detect_stability_walk (F Emb : Type) (E : Encoder F Emb)
    (frames : List F) (threshold : ℚ) (h2 : 2 ≤ frames.length) :
    ((detect_stability E frames threshold).1 = true ↔
      2 ≤ trailingRunLen (consecutiveSimilarities E frames) threshold) ∧
      ((detect_stability E frames threshold).1 = true →
        (detect_stability E frames threshold).2.1 =
          ((consecutiveSimilarities E frames).length : ℤ) -
            trailingRunLen (consecutiveSimilarities E frames) threshold + 1) ∧
      ((detect_stability E frames threshold).1 = false →
        (detect_stability E frames threshold).2.1 = (frames.length : ℤ) - 1) ∧
      detect_stability constSimEncoder [0, 1, 2, 3, 4] (49/50) =
        (true, 1, 99/100, "static") := by
  have hlt : ¬ frames.length < 2 := by omega
  have hle := trailingRunLen_le_length (consecutiveSimilarities E frames) threshold
  have hwalk := stabilityWalk_characterization
    (consecutiveSimilarities E frames) threshold
  refine ⟨?_, ?_, ?_, ?_⟩
  · simp [detect_stability, if_neg hlt, hwalk]
  · intro h
    have hR : 2 ≤ trailingRunLen (consecutiveSimilarities E frames) threshold := by
      simpa [detect_stability, if_neg hlt, hwalk] using h
    simp only [detect_stability, if_neg hlt, hwalk, if_pos hR]
    rw [if_pos (by omega)]
  · intro h
    have hR : ¬ 2 ≤ trailingRunLen (consecutiveSimilarities E frames) threshold := by
      simpa [detect_stability, if_neg hlt, hwalk] using h
    simp only [detect_stability, if_neg hlt, hwalk, if_neg hR]
    rw [if_neg (by omega)]
  · have hsims : consecutiveSimilarities constSimEncoder [0, 1, 2, 3, 4] =
        [99/100, 99/100, 99/100, 99/100] := rfl
    have hthr : (49/50 : ℚ) ≤ 99/100 := by norm_num
    have hwalkc : stabilityWalk [99/100, 99/100, 99/100, 99/100] (49/50) =
        (4, 4, 1) := by
      simp [stabilityWalk, stabilityStep, hthr]
    have hscore : ([99/100, 99/100, 99/100, 99/100] : List ℚ).sum /
        (([99/100, 99/100, 99/100, 99/100] : List ℚ).length : ℚ) = 99/100 := by
      norm_num
    have hni : ¬ ([99/100, 99/100, 99/100, 99/100] : List ℚ) = [] := by simp
    simp only [detect_stability, List.length_cons, List.length_nil, hsims, hwalkc,
      if_neg hni]
    norm_num [hscore]

/-- Witness for `detect_stability_walk` at a concrete input. -/
theorem detect_stability_walk_witness :
    2 ≤ ([0, 1, 2, 3, 4] : List ℕ).length ∧
      ((detect_stability constSimEncoder [0, 1, 2, 3, 4] (49/50)).1 = true ↔
        2 ≤ trailingRunLen
          (consecutiveSimilarities constSimEncoder [0, 1, 2, 3, 4]) (49/50)) ∧
      detect_stability constSimEncoder [0, 1, 2, 3, 4] (49/50) =
        (true, 1, 99/100, "static") := by
  have T := detect_stability_walk ℕ ℕ constSimEncoder [0, 1, 2, 3, 4] (49/50)
    (by decide)
  exact ⟨by decide, T.1, T.2.2.2⟩

/-- C9: for every pair of frames, every positive threshold and every grid
size, every region emitted by `calculate_changed_regions` comes from a grid
cell whose mean absolute difference strictly exceeds the threshold, its
significance is `min(diff / threshold, 1.0)`, and that value always equals
exactly `1.0` (since `diff > threshold > 0` forces `diff / threshold > 1`,
the clamp always engages). -/
theorem calculate_changed_regions_significance_one (frame1 frame2 : Tensor3)
    (threshold : ℚ) (grid_size : ℕ) (r : ChangeRegion)
    (hthr : 0 < threshold)
    (hr : r ∈ calculate_changed_regions frame1 frame2 threshold grid_size) :
    (∃ i j, i < grid_size ∧ j < grid_size ∧
      threshold < cellMeanAbsDiff frame1 frame2 grid_size i j ∧
      r.significance =
        min (cellMeanAbsDiff frame1 frame2 grid_size i j / threshold) 1) ∧
      r.significance = 1 := by
  rw [calculate_changed_regions, List.mem_filterMap] at hr
  obtain ⟨⟨i, j⟩, hmem, hsome⟩ := hr
  have hij : i < grid_size ∧ j < grid_size := by
    simp only [List.mem_flatMap, List.mem_map, List.mem_range] at hmem
    obtain ⟨a, ha, b, hb, hab⟩ := hmem
    cases hab
    exact ⟨ha, hb⟩
  by_cases hd : threshold < cellMeanAbsDiff frame1 frame2 grid_size i j
  · rw [if_pos hd] at hsome
    obtain rfl := Option.some.inj hsome
    have hone : (1 : ℚ) ≤ cellMeanAbsDiff frame1 frame2 grid_size i j / threshold :=
      (one_le_div hthr).mpr hd.le
    refine ⟨⟨i, j, hij.1, hij.2, hd, rfl⟩, ?_⟩
    show min (cellMeanAbsDiff frame1 frame2 grid_size i j / threshold) 1 = 1
    exact min_eq_right hone
  · rw [if_neg hd] at hsome
    exact absurd hsome (by simp)

/-- Witness for `calculate_changed_regions_significance_one` at a concrete
input: comparing an all-zero and an all-one 1×1×1 frame at threshold `0.5`
on a 1×1 grid emits one region, whose significance is `1`. -/
theorem calculate_changed_regions_significance_one_witness :
    (0 : ℚ) < 1/2 ∧
      calculate_changed_regions zeroFrame oneFrame (1/2) 1 =
        [{ x := 0, y := 0, width := 1, height := 1, significance := 1 }] ∧
      ({ x := 0, y := 0, width := 1, height := 1, significance := 1 } :
        ChangeRegion).significance = 1 := by
  have hm : cellMeanAbsDiff zeroFrame oneFrame 1 0 0 = 1 := by
    simp [cellMeanAbsDiff, patchAbsDiffSum, changedRegionCellBounds,
      zeroFrame, oneFrame]
  have hlist : calculate_changed_regions zeroFrame oneFrame (1/2) 1 =
      [{ x := 0, y := 0, width := 1, height := 1, significance := 1 }] := by
    have hlt : (1/2 : ℚ) < cellMeanAbsDiff zeroFrame oneFrame 1 0 0 := by
      rw [hm]; norm_num
    have hgrid : ((List.range 1).flatMap (fun i =>
        (List.range 1).map (fun j => (i, j)))) = [((0:ℕ), (0:ℕ))] := rfl
    simp only [calculate_changed_regions, hgrid, List.filterMap_cons,
      List.filterMap_nil, if_pos hlt, hm]
    norm_num [changedRegionCellBounds, zeroFrame, oneFrame]
  have hr : ({ x := 0, y := 0, width := 1, height := 1, significance := 1 } :
      ChangeRegion) ∈ calculate_changed_regions zeroFrame oneFrame (1/2) 1 := by
    rw [hlist]; exact List.mem_singleton.mpr rfl
  exact ⟨by norm_num, hlist,
    (calculate_changed_regions_significance_one zeroFrame oneFrame (1/2) 1 _
      (by norm_num) hr).2⟩

/-- Counterexample to C1 as stated: for 10×10 frames and `grid_size = 3`
the considered cells do NOT tile the source image — row 9 exists
(`9 < 10`) but pixel `(9, 0)` lies in no cell, under both the
`calculate_changed_regions` cell bounds and the `find_by_description` cell
bounds (whose `min`-clamp never extends a cell): the trailing rows beyond
`grid_size * (H // grid_size) = 9` are dropped. -/
theorem grid_trailing_rows_dropped :
    (9 : ℕ) < 10 ∧
      (∀ i < 3, ∀ j < 3, ¬ cellCoversPixel 10 10 3 i j 9 0) ∧
      (∀ i < 3, ∀ j < 3,
        ¬ ((siglipCellBounds 10 10 3 i j).1 ≤ 9 ∧
          9 < (siglipCellBounds 10 10 3 i j).2.1)) := by
  simp only [cellCoversPixel, changedRegionCellBounds, siglipCellBounds]
  decide

/-- C1 (amended): for every frame size and `grid_size ≥ 1`, the cells
considered by the grid change detector — cell `(i, j)` covering rows
`[i*(H//grid_size), (i+1)*(H//grid_size))` and columns
`[j*(W//grid_size), (j+1)*(W//grid_size))` — are identical in
`calculate_changed_regions` and `find_by_description`, and they tile the
cropped region `[0, grid_size*(H//grid_size)) × [0, grid_size*(W//grid_size))`
exactly: every pixel of the cropped region is covered by exactly one cell,
and every pixel beyond it (the trailing rows/columns present when `H` or
`W` is not divisible by `grid_size`) is covered by no cell — the trailing
incomplete cell is dropped, not included. -/
theorem grid_cells_tile_cropped_image (H W grid_size : ℕ)
    (_hg : 1 ≤ grid_size) :
    (∀ i j, i < grid_size → j < grid_size →
      siglipCellBounds H W grid_size i j =
        changedRegionCellBounds H W grid_size i j) ∧
      (∀ y x, y < grid_size * (H / grid_size) →
        x < grid_size * (W / grid_size) →
        ∃! p : ℕ × ℕ, p.1 < grid_size ∧ p.2 < grid_size ∧
          cellCoversPixel H W grid_size p.1 p.2 y x) ∧
      (∀ y x i j, i < grid_size → j < grid_size →
        (grid_size * (H / grid_size) ≤ y ∨ grid_size * (W / grid_size) ≤ x) →
        ¬ cellCoversPixel H W grid_size i j y x) := by
  refine ⟨?_, ?_, ?_⟩
  · intro i j hi hj
    have h1 : (i + 1) * (H / grid_size) ≤ H :=
      le_trans (Nat.mul_le_mul_right _ hi)
        (by rw [mul_comm]; exact Nat.div_mul_le_self H grid_size)
    have h2 : (j + 1) * (W / grid_size) ≤ W :=
      le_trans (Nat.mul_le_mul_right _ hj)
        (by rw [mul_comm]; exact Nat.div_mul_le_self W grid_size)
    simp [siglipCellBounds, changedRegionCellBounds, Nat.min_eq_left h1,
      Nat.min_eq_left h2]
  · intro y x hy hx
    have hph : 0 < H / grid_size := by
      rcases Nat.eq_zero_or_pos (H / grid_size) with h0 | h0
      · rw [h0, Nat.mul_zero] at hy; omega
      · exact h0
    have hpw : 0 < W / grid_size := by
      rcases Nat.eq_zero_or_pos (W / grid_size) with h0 | h0
      · rw [h0, Nat.mul_zero] at hx; omega
      · exact h0
    refine ⟨(y / (H / grid_size), x / (W / grid_size)),
      ⟨(Nat.div_lt_iff_lt_mul hph).mpr hy, (Nat.div_lt_iff_lt_mul hpw).mpr hx,
        Nat.div_mul_le_self y _,
        (Nat.div_lt_iff_lt_mul hph).mp (Nat.lt_succ_self _),
        Nat.div_mul_le_self x _,
        (Nat.div_lt_iff_lt_mul hpw).mp (Nat.lt_succ_self _)⟩,
      ?_⟩
    rintro ⟨a, b⟩ ⟨ha, hb, c1, c2, c3, c4⟩
    have hay : a = y / (H / grid_size) := by
      have h1 : a ≤ y / (H / grid_size) := (Nat.le_div_iff_mul_le hph).mpr c1
      have h2 : y / (H / grid_size) < a + 1 := (Nat.div_lt_iff_lt_mul hph).mpr c2
      omega
    have hbx : b = x / (W / grid_size) := by
      have h1 : b ≤ x / (W / grid_size) := (Nat.le_div_iff_mul_le hpw).mpr c3
      have h2 : x / (W / grid_size) < b + 1 := (Nat.div_lt_iff_lt_mul hpw).mpr c4
      omega
    simp [hay, hbx]
  · rintro y x i j hi hj (hY | hX) ⟨c1, c2, c3, c4⟩
    all_goals simp only [changedRegionCellBounds] at c1 c2 c3 c4
    · have h1 : (i + 1) * (H / grid_size) ≤ grid_size * (H / grid_size) :=
        Nat.mul_le_mul_right _ hi
      omega
    · have h1 : (j + 1) * (W / grid_size) ≤ grid_size * (W / grid_size) :=
        Nat.mul_le_mul_right _ hj
      omega

/-- Witness for `grid_cells_tile_cropped_image` at a concrete input:
10×10 frames, grid 3 — pixel `(4, 5)` of the cropped region is covered by
exactly one cell. -/
theorem grid_cells_tile_cropped_image_witness :
    1 ≤ 3 ∧ (4 : ℕ) < 3 * (10 / 3) ∧ (5 : ℕ) < 3 * (10 / 3) ∧
      ∃! p : ℕ × ℕ, p.1 < 3 ∧ p.2 < 3 ∧ cellCoversPixel 10 10 3 p.1 p.2 4 5 :=
  ⟨by decide, by decide, by decide,
    (grid_cells_tile_cropped_image 10 10 3 (by decide)).2.1 4 5
      (by decide) (by decide)⟩
